import Mathlib

/-!
# Uncertainty calculator (`uncertainty_calculator.c`)

A shallow embedding of the numerical core of the GB/T 27411-2012 uncertainty
calculator and of the two callbacks that mutate the global measurement series.

Modelling conventions.

* A C `double` is an element of a linearly ordered field `α`; the theorems
  instantiate `α := ℝ`.  The functions named after those of the source
  (`calculate_mean`, `calculate_std_dev` and the others) carry out the
  operations of the code in exact arithmetic: the formulas and the branch
  conditions are those of the code, without the rounding of IEEE doubles.
  The C library function `sqrt` is passed to every function that calls it as
  the parameter `sqrt`; the theorems instantiate it with `Real.sqrt`.
* The rounding of the double operations is made explicit in
  `calculate_mean_rounded` and `calculate_std_dev_rounded`: the same loops,
  with a rounding function `rnd` applied to the result of every operation.
  With `rnd := id` they are the exact functions; with
  `rnd := roundBinary64` (round to nearest, ties to even, 53-bit significand)
  they are the evaluation in IEEE 754 binary64.
* The struct `MeasurementData` keeps its two fields: the pointer `data`
  (`none` is `NULL`, `some buf` is a heap block holding the doubles `buf`) and
  the `int` field `count`.
* The increment `meas_data.count++` of the 32-bit `int` wraps around.
* Values obtained from the GTK widgets (`atof` of an entry text, the active
  index of the combo box, the outcome of `realloc`) are arguments of the
  embedded callbacks.
-/

namespace UncertaintyCalculator

/-! ## Data model -/

/-- The struct `MeasurementData`: the pointer `data` and the integer `count`. -/
structure MeasurementData (α : Type) where
  data : Option (List α)
  count : Int

/-- The struct `BTypeParams`: limit error and distribution code
(0 uniform, 1 normal 95%, 2 normal 99%). -/
structure BTypeParams (α : Type) where
  limit_error : α
  distribution_type : Int

/-- The values that `calculate_uncertainty` passes to `g_strdup_printf`, in the
order of the format string. -/
structure Report (α : Type) where
  count : Int
  mean : α
  std_dev : α
  u_a : α
  limit_error : α
  distribution_type : Int
  u_b : α
  u_c : α
  expanded_uncert : α

section Engine

variable {α : Type} [LinearOrderedField α]

/-- The read `data->data[i]`.  A read outside the block has no defined value in
C; it is given the value `0` here. -/
def MeasurementData.elem (d : MeasurementData α) (i : Nat) : α :=
  (d.data.getD []).getD i 0

/-- The function `calculate_mean`, in exact arithmetic. -/
def calculate_mean (d : MeasurementData α) : α :=
  if d.count = 0 then 0
  else
    let sum := (List.range d.count.toNat).foldl (fun sum i => sum + d.elem i) 0
    sum / (d.count : α)

/-- The function `calculate_std_dev`, in exact arithmetic. -/
def calculate_std_dev (sqrt : α → α) (d : MeasurementData α) (mean : α) : α :=
  if d.count ≤ 1 then 0
  else
    let sum_sq := (List.range d.count.toNat).foldl
      (fun sum_sq i => let diff := d.elem i - mean; sum_sq + diff * diff) 0
    sqrt (sum_sq / ((d.count - 1 : Int) : α))

/-- The function `calculate_type_a_uncertainty`. -/
def calculate_type_a_uncertainty (sqrt : α → α) (d : MeasurementData α) (std_dev : α) : α :=
  if d.count = 0 then 0
  else std_dev / sqrt (d.count : α)

/-- The function `calculate_type_b_uncertainty`. -/
def calculate_type_b_uncertainty (sqrt : α → α) (params : BTypeParams α) : α :=
  if params.limit_error ≤ 0 then 0
  else
    let k : α :=
      match params.distribution_type with
      | 0 => sqrt 3
      | 1 => 2
      | 2 => 3
      | _ => sqrt 3
    params.limit_error / k

/-- The function `calculate_combined_uncertainty`. -/
def calculate_combined_uncertainty (sqrt : α → α) (u_a u_b : α) : α :=
  sqrt (u_a * u_a + u_b * u_b)

/-- The callback `calculate_uncertainty`, as a function of the global
`meas_data`, of `limit_error = atof (text of b_error_entry)` and of
`distribution_type = gtk_combo_box_get_active dist_combo`.  The result is
`none` when the callback shows the warning dialog and returns, and otherwise
the values written into the result text. -/
def calculate_uncertainty (sqrt : α → α) (meas_data : MeasurementData α)
    (limit_error : α) (distribution_type : Int) : Option (Report α) :=
  if meas_data.count < 2 then none
  else
    let b_params : BTypeParams α := ⟨limit_error, distribution_type⟩
    let mean := calculate_mean meas_data
    let std_dev := calculate_std_dev sqrt meas_data mean
    let u_a := calculate_type_a_uncertainty sqrt meas_data std_dev
    let u_b := calculate_type_b_uncertainty sqrt b_params
    let u_c := calculate_combined_uncertainty sqrt u_a u_b
    let expanded_uncert := u_c * 2
    some ⟨meas_data.count, mean, std_dev, u_a, b_params.limit_error,
      b_params.distribution_type, u_b, u_c, expanded_uncert⟩

end Engine

/-! ## The double operations with their rounding -/

section Rounded

variable {α : Type} [LinearOrderedField α]

/-- The integer nearest to `s`, a tie going to the even neighbour. -/
def roundHalfEven [FloorRing α] (s : α) : Int :=
  let f := ⌊s⌋
  if s - f < 1 / 2 then f
  else if 1 / 2 < s - f then f + 1
  else if f % 2 = 0 then f
  else f + 1

/-- The IEEE 754 binary64 value nearest to `x`, a tie going to the even
significand (the default rounding of C `double` operations).  With
`e = max ⌊log2 |x|⌋ (-1022)` the spacing of the doubles around `x` is
`2 ^ (e - 52)` (the subnormal spacing `2 ^ (-1074)` below `2 ^ (-1022)`), and
`x` goes to the nearest multiple of it.  Overflow to an infinity (results of
magnitude `2 ^ 1024` and more) is left out. -/
def roundBinary64 [FloorRing α] (x : α) : α :=
  let e := max (Int.log 2 |x|) (-1022)
  let ulp : α := 2 ^ (e - 52)
  (roundHalfEven (x / ulp) : α) * ulp

/-- The function `calculate_mean`, the result of every double operation (each
`sum += data[i]` and the final division) being rounded by `rnd`.  The
conversion of `count` to `double` is exact. -/
def calculate_mean_rounded (rnd : α → α) (d : MeasurementData α) : α :=
  if d.count = 0 then 0
  else
    let sum := (List.range d.count.toNat).foldl (fun sum i => rnd (sum + d.elem i)) 0
    rnd (sum / (d.count : α))

/-- The function `calculate_std_dev`, the result of every double operation (the
subtraction, the product, the addition of each iteration, the final division
and the square root) being rounded by `rnd`; `sqrt` is the exact square root,
so that `rnd (sqrt x)` is the correctly rounded one.  Product and addition are
rounded one after the other (no fused multiply-add). -/
def calculate_std_dev_rounded (rnd : α → α) (sqrt : α → α) (d : MeasurementData α)
    (mean : α) : α :=
  if d.count ≤ 1 then 0
  else
    let sum_sq := (List.range d.count.toNat).foldl
      (fun sum_sq i => let diff := rnd (d.elem i - mean); rnd (sum_sq + rnd (diff * diff))) 0
    rnd (sqrt (rnd (sum_sq / ((d.count - 1 : Int) : α))))

end Rounded

/-! ## The session: `add_data_point` and `clear_data` -/

section Session

variable {α : Type}

/-- Two's-complement wrap of an integer into the range of a 32-bit `int`. -/
def wrapInt32 (x : Int) : Int :=
  (x + 2 ^ 31) % 2 ^ 32 - 2 ^ 31

/-- A successful `realloc (p, n * sizeof (double))`: a block of `n` doubles
whose leading elements are those of the old block; the fresh elements, which C
leaves indeterminate, are `0` here. -/
def realloc [Zero α] (p : Option (List α)) (n : Nat) : List α :=
  let old := p.getD []
  old.take n ++ List.replicate (n - old.length) 0

/-- The callback `add_data_point`, restricted to its effect on `meas_data`.
`hasText` is the test `text && *text`, `value` is `atof (text)`, and
`reallocOk` tells whether `realloc` returned a non-null block. -/
def add_data_point [Zero α] (hasText : Bool) (value : α) (reallocOk : Bool)
    (meas_data : MeasurementData α) : MeasurementData α :=
  if hasText then
    if reallocOk then
      let new_data := realloc meas_data.data (wrapInt32 (meas_data.count + 1)).toNat
      { data := some (new_data.set meas_data.count.toNat value),
        count := wrapInt32 (meas_data.count + 1) }
    else meas_data
  else meas_data

/-- The callback `clear_data`, restricted to its effect on `meas_data`. -/
def clear_data (meas_data : MeasurementData α) : MeasurementData α :=
  match meas_data.data with
  | some _ => { data := none, count := 0 }
  | none => meas_data

/-- The initial value of the global: `meas_data = {NULL, 0}`. -/
def initial : MeasurementData α :=
  { data := none, count := 0 }

/-- One user action on the series. -/
inductive Action (α : Type) where
  | add (hasText : Bool) (value : α) (reallocOk : Bool)
  | clear

/-- The effect of one action on `meas_data`. -/
def step [Zero α] (s : MeasurementData α) : Action α → MeasurementData α
  | Action.add hasText value reallocOk => add_data_point hasText value reallocOk s
  | Action.clear => clear_data s

/-- The state after a sequence of actions, performed left to right. -/
def run [Zero α] (s : MeasurementData α) (actions : List (Action α)) : MeasurementData α :=
  actions.foldl step s

/-- The invariant of the session: a null `data` pointer comes with `count = 0`. -/
def NullImpliesEmpty (s : MeasurementData α) : Prop :=
  s.data = none → s.count = 0

end Session

/-! ## The result text -/

section Format

variable {α : Type} [LinearOrderedField α] [FloorRing α]

/-- The value `v` rounded to `d` decimals, as a number of units `10^-d`: the
integer nearest to `v * 10^d`, a tie going to the even neighbour, as `printf`
rounds the exact value of its argument. -/
def roundDecimals (d : Nat) (v : α) : Int :=
  roundHalfEven (v * 10 ^ d)

/-- The six decimal digits of `n < 10^6`, with leading zeros. -/
def digits6 (n : Nat) : String :=
  String.mk [Nat.digitChar (n / 100000 % 10), Nat.digitChar (n / 10000 % 10),
    Nat.digitChar (n / 1000 % 10), Nat.digitChar (n / 100 % 10),
    Nat.digitChar (n / 10 % 10), Nat.digitChar (n % 10)]

/-- The conversion `%.6f` of `printf`: sign, integer part, point, six decimals
of the value rounded to six decimals. -/
def fixed6 (v : α) : String :=
  let n := (roundDecimals 6 v).natAbs
  (if v < 0 then "-" else "") ++ toString (n / 1000000) ++ "." ++ digits6 (n % 1000000)

/-- The last line of the result text after its label: the arguments `mean` and
`expanded_uncert` under the format `%.6f ± %.6f`. -/
def result_statement (r : Report α) : String :=
  fixed6 r.mean ++ " ± " ++ fixed6 r.expanded_uncert

end Format

/-! ## The scenario of the specification -/

/-- The measurements of the scenario: 10.00, 10.02, 9.98, 10.01, 9.99. -/
def scenario {α : Type} [LinearOrderedField α] : List α :=
  [10.00, 10.02, 9.98, 10.01, 9.99]

/-! ## Well-formed series and the formulas of the specification -/

section Spec

variable {α : Type} [LinearOrderedField α]

/-- The well-formed series that stores exactly the measurements `buf`: a
non-null block holding `buf`, and `count` equal to its length. -/
def ofList (buf : List α) : MeasurementData α :=
  { data := some buf, count := (buf.length : Int) }

end Spec

/-! ## Lemmas -/

section Lemmas

variable {α : Type} [LinearOrderedField α]

theorem foldl_range_take (f : α → α) (buf : List α) :
    ∀ n : Nat, n ≤ buf.length →
      (List.range n).foldl (fun s i => s + f (buf.getD i 0)) 0 = ((buf.take n).map f).sum := by
  intro n
  induction n with
  | zero => intro _; simp
  | succ n ih =>
    intro hn
    have hlt : n < buf.length := hn
    rw [List.range_succ, List.foldl_append, ih (Nat.le_of_lt hlt)]
    rw [List.take_succ, List.getElem?_eq_getElem hlt]
    simp only [List.foldl_cons, List.foldl_nil, Option.toList, List.map_append, List.sum_append,
      List.map_cons, List.map_nil, List.sum_cons, List.sum_nil, add_zero,
      List.getD_eq_getElem _ _ hlt]

theorem foldl_range_length (f : α → α) (buf : List α) :
    (List.range buf.length).foldl (fun s i => s + f (buf.getD i 0)) 0 = (buf.map f).sum := by
  rw [foldl_range_take f buf buf.length le_rfl, List.take_length]

theorem elem_ofList (buf : List α) (i : Nat) : (ofList buf).elem i = buf.getD i 0 := rfl

theorem calculate_mean_ofList (buf : List α) :
    calculate_mean (ofList buf) = buf.sum / (buf.length : α) := by
  unfold calculate_mean
  by_cases h : buf = []
  · subst h; simp [ofList]
  · have hlen : ((ofList buf).count = 0) = False := by
      simp [ofList, h]
    simp only [hlen, if_false]
    have hsum := foldl_range_length (fun x => x) buf
    rw [List.map_id'] at hsum
    simp only [elem_ofList]
    have hc : (ofList buf).count.toNat = buf.length := by simp [ofList]
    rw [hc, hsum]
    simp [ofList]

theorem calculate_std_dev_ofList (sqrt : α → α) (buf : List α) (mean : α)
    (h : 2 ≤ buf.length) :
    calculate_std_dev sqrt (ofList buf) mean =
      sqrt ((buf.map (fun x => (x - mean) * (x - mean))).sum / ((buf.length : α) - 1)) := by
  unfold calculate_std_dev
  have hc : ¬ (ofList buf).count ≤ 1 := by
    simp only [ofList, not_le]
    exact_mod_cast h
  have hn : (ofList buf).count.toNat = buf.length := by simp [ofList]
  have hsum := foldl_range_length (fun x => (x - mean) * (x - mean)) buf
  simp only [hc, if_false, elem_ofList, hn, hsum]
  simp [ofList]

theorem calculate_type_a_uncertainty_ofList (sqrt : α → α) (buf : List α) (std_dev : α)
    (h : buf ≠ []) :
    calculate_type_a_uncertainty sqrt (ofList buf) std_dev = std_dev / sqrt (buf.length : α) := by
  unfold calculate_type_a_uncertainty
  simp [ofList, h]

theorem calculate_uncertainty_ofList (sqrt : α → α) (buf : List α) (limit_error : α)
    (distribution_type : Int) (h : 2 ≤ buf.length) :
    calculate_uncertainty sqrt (ofList buf) limit_error distribution_type =
      some ⟨(buf.length : Int), calculate_mean (ofList buf),
        calculate_std_dev sqrt (ofList buf) (calculate_mean (ofList buf)),
        calculate_type_a_uncertainty sqrt (ofList buf)
          (calculate_std_dev sqrt (ofList buf) (calculate_mean (ofList buf))),
        limit_error, distribution_type,
        calculate_type_b_uncertainty sqrt ⟨limit_error, distribution_type⟩,
        calculate_combined_uncertainty sqrt
          (calculate_type_a_uncertainty sqrt (ofList buf)
            (calculate_std_dev sqrt (ofList buf) (calculate_mean (ofList buf))))
          (calculate_type_b_uncertainty sqrt ⟨limit_error, distribution_type⟩),
        calculate_combined_uncertainty sqrt
          (calculate_type_a_uncertainty sqrt (ofList buf)
            (calculate_std_dev sqrt (ofList buf) (calculate_mean (ofList buf))))
          (calculate_type_b_uncertainty sqrt ⟨limit_error, distribution_type⟩) * 2⟩ := by
  unfold calculate_uncertainty
  have hc : ¬ (ofList buf).count < 2 := by
    simp only [ofList, not_lt]
    exact_mod_cast h
  simp only [hc, if_false]
  rfl

theorem ne_nil_of_two_le {β : Type} (buf : List β) (h : 2 ≤ buf.length) : buf ≠ [] := by
  intro hnil
  subst hnil
  simp at h

theorem calculate_std_dev_ofList_short (sqrt : α → α) (buf : List α) (mean : α)
    (h : buf.length ≤ 1) : calculate_std_dev sqrt (ofList buf) mean = 0 := by
  unfold calculate_std_dev
  have hc : (ofList buf).count ≤ 1 := by
    simp only [ofList]
    exact_mod_cast h
  simp only [hc, if_true]

theorem sum_map_add_const (buf : List α) (c : α) :
    (buf.map (fun x => x + c)).sum = buf.sum + (buf.length : α) * c := by
  induction buf with
  | nil => simp
  | cons x xs ih =>
    simp only [List.map_cons, List.sum_cons, List.length_cons, Nat.cast_succ, ih]
    ring

theorem calculate_std_dev_perm (sqrt : α → α) (buf₁ buf₂ : List α) (hp : buf₁.Perm buf₂)
    (mean : α) :
    calculate_std_dev sqrt (ofList buf₁) mean = calculate_std_dev sqrt (ofList buf₂) mean := by
  have hlen : buf₁.length = buf₂.length := hp.length_eq
  by_cases h : 2 ≤ buf₁.length
  · rw [calculate_std_dev_ofList sqrt buf₁ mean h,
      calculate_std_dev_ofList sqrt buf₂ mean (hlen ▸ h), hlen,
      (hp.map (fun x => (x - mean) * (x - mean))).sum_eq]
  · have h1 : buf₁.length ≤ 1 := by omega
    rw [calculate_std_dev_ofList_short sqrt buf₁ mean h1,
      calculate_std_dev_ofList_short sqrt buf₂ mean (hlen ▸ h1)]

theorem calculate_type_a_uncertainty_perm (sqrt : α → α) (buf₁ buf₂ : List α)
    (hp : buf₁.Perm buf₂) (std_dev : α) :
    calculate_type_a_uncertainty sqrt (ofList buf₁) std_dev =
      calculate_type_a_uncertainty sqrt (ofList buf₂) std_dev := by
  unfold calculate_type_a_uncertainty
  simp only [ofList, hp.length_eq]

theorem calculate_mean_perm (buf₁ buf₂ : List α) (hp : buf₁.Perm buf₂) :
    calculate_mean (ofList buf₁) = calculate_mean (ofList buf₂) := by
  rw [calculate_mean_ofList, calculate_mean_ofList, hp.sum_eq, hp.length_eq]

end Lemmas

section SessionLemmas

variable {α : Type}

theorem nullImpliesEmpty_initial : NullImpliesEmpty (initial : MeasurementData α) :=
  fun _ => rfl

theorem nullImpliesEmpty_step [Zero α] (s : MeasurementData α) (a : Action α)
    (hs : NullImpliesEmpty s) : NullImpliesEmpty (step s a) := by
  cases a with
  | add hasText value reallocOk =>
    cases hasText <;> cases reallocOk <;>
      simp [step, add_data_point, NullImpliesEmpty] <;> exact hs
  | clear =>
    unfold step clear_data
    cases hd : s.data with
    | none => simpa [hd] using hs
    | some buf => intro _; rfl

theorem nullImpliesEmpty_run [Zero α] (actions : List (Action α)) :
    ∀ s : MeasurementData α, NullImpliesEmpty s → NullImpliesEmpty (run s actions) := by
  induction actions with
  | nil => intro s hs; exact hs
  | cons a rest ih =>
    intro s hs
    exact ih (step s a) (nullImpliesEmpty_step s a hs)

theorem clear_data_of_nullImpliesEmpty (s : MeasurementData α) (hs : NullImpliesEmpty s) :
    clear_data s = { data := none, count := 0 } := by
  unfold clear_data
  cases hd : s.data with
  | none =>
    have hc : s.count = 0 := hs hd
    cases s
    simp_all
  | some buf => rfl

end SessionLemmas

section RoundingLemmas

theorem roundHalfEven_intCast (n : ℤ) : roundHalfEven (n : ℝ) = n := by
  simp [roundHalfEven]

theorem roundHalfEven_of_lt (s : ℝ) (f : ℤ) (h1 : (f : ℝ) ≤ s) (h2 : s < f + 1 / 2) :
    roundHalfEven s = f := by
  have hf : ⌊s⌋ = f := Int.floor_eq_iff.mpr ⟨h1, by linarith⟩
  unfold roundHalfEven
  simp only [hf]
  rw [if_pos (by linarith)]

theorem roundHalfEven_of_gt (s : ℝ) (f : ℤ) (h1 : (f : ℝ) + 1 / 2 < s) (h2 : s < f + 1) :
    roundHalfEven s = f + 1 := by
  have hf : ⌊s⌋ = f := Int.floor_eq_iff.mpr ⟨by linarith, h2⟩
  unfold roundHalfEven
  simp only [hf]
  rw [if_neg (by linarith), if_pos (by linarith)]

theorem roundHalfEven_tie (s : ℝ) (f : ℤ) (h : s = f + 1 / 2) :
    roundHalfEven s = if f % 2 = 0 then f else f + 1 := by
  have hf : ⌊s⌋ = f := Int.floor_eq_iff.mpr ⟨by linarith, by linarith⟩
  unfold roundHalfEven
  simp only [hf]
  rw [if_neg (by linarith), if_neg (by linarith)]

theorem log2_eq (x : ℝ) (e : ℤ) (hlo : (2 : ℝ) ^ e ≤ |x|) (hhi : |x| < (2 : ℝ) ^ (e + 1)) :
    Int.log 2 |x| = e := by
  have hpos : 0 < |x| := lt_of_lt_of_le (by positivity) hlo
  have h1 : e ≤ Int.log 2 |x| := (Int.zpow_le_iff_le_log (by norm_num) hpos).mp (by exact_mod_cast hlo)
  have h2 : Int.log 2 |x| < e + 1 := (Int.lt_zpow_iff_log_lt (by norm_num) hpos).mp (by exact_mod_cast hhi)
  omega

theorem roundBinary64_eq (x : ℝ) (e n : ℤ) (he : -1022 ≤ e) (hlo : (2 : ℝ) ^ e ≤ |x|)
    (hhi : |x| < (2 : ℝ) ^ (e + 1)) (hn : roundHalfEven (x / 2 ^ (e - 52)) = n) :
    roundBinary64 x = n * 2 ^ (e - 52) := by
  unfold roundBinary64
  simp only [log2_eq x e hlo hhi, max_eq_left he, hn]

theorem roundHalfEven_scaled (m k E : ℤ) (hE : E ≤ k) :
    (roundHalfEven ((m : ℝ) * 2 ^ k / 2 ^ E) : ℝ) * 2 ^ E = (m : ℝ) * 2 ^ k := by
  obtain ⟨j, hj⟩ : ∃ j : ℕ, k = E + j := ⟨(k - E).toNat, by omega⟩
  have h2E : (2 : ℝ) ^ E ≠ 0 := by positivity
  have hk : (2 : ℝ) ^ k = 2 ^ E * 2 ^ j := by
    rw [hj, zpow_add₀ (by norm_num : (2 : ℝ) ≠ 0), zpow_natCast]
  have hdiv : (m : ℝ) * 2 ^ k / 2 ^ E = ((m * 2 ^ j : ℤ) : ℝ) := by
    rw [hk]
    push_cast
    field_simp
    ring
  rw [hdiv, roundHalfEven_intCast, hk]
  push_cast
  ring

theorem roundBinary64_of_scaled (m k : ℤ) (hm : |m| < 2 ^ 53) (hk : -1074 ≤ k) :
    roundBinary64 ((m : ℝ) * 2 ^ k) = (m : ℝ) * 2 ^ k := by
  by_cases h0 : m = 0
  · subst h0
    simp [roundBinary64, roundHalfEven]
  · have h2k : (0 : ℝ) < 2 ^ k := by positivity
    have hpos : 0 < |(m : ℝ) * 2 ^ k| := abs_pos.mpr (mul_ne_zero (by exact_mod_cast h0) h2k.ne')
    have hlt : |(m : ℝ) * 2 ^ k| < (2 : ℝ) ^ (53 + k) := by
      rw [abs_mul, abs_of_pos h2k, zpow_add₀ (by norm_num : (2 : ℝ) ≠ 0)]
      apply mul_lt_mul_of_pos_right _ h2k
      have : ((|m| : ℤ) : ℝ) < ((2 ^ 53 : ℤ) : ℝ) := by exact_mod_cast hm
      push_cast at this
      exact_mod_cast this
    have hL : Int.log 2 |(m : ℝ) * 2 ^ k| < 53 + k :=
      (Int.lt_zpow_iff_log_lt (by norm_num) hpos).mp (by exact_mod_cast hlt)
    have hE : max (Int.log 2 |(m : ℝ) * 2 ^ k|) (-1022) - 52 ≤ k := by
      rcases max_cases (Int.log 2 |(m : ℝ) * 2 ^ k|) (-1022) with ⟨h, _⟩ | ⟨h, _⟩ <;> omega
    exact roundHalfEven_scaled m k _ hE

theorem roundBinary64_intCast (n : ℤ) (hn : |n| < 2 ^ 53) : roundBinary64 (n : ℝ) = n := by
  simpa using roundBinary64_of_scaled n 0 hn (by norm_num)

theorem calculate_mean_rounded_id {α : Type} [LinearOrderedField α] (d : MeasurementData α) :
    calculate_mean_rounded id d = calculate_mean d := rfl

theorem calculate_std_dev_rounded_id {α : Type} [LinearOrderedField α] (sqrt : α → α)
    (d : MeasurementData α) (mean : α) :
    calculate_std_dev_rounded id sqrt d mean = calculate_std_dev sqrt d mean := rfl

end RoundingLemmas

section ScenarioLemmas

theorem roundDecimals_eq_of_bounds (d : Nat) (n : Int) (v : ℝ)
    (h1 : (n : ℝ) - 1 / 2 < v * 10 ^ d) (h2 : v * 10 ^ d < (n : ℝ) + 1 / 2) :
    roundDecimals d v = n := by
  unfold roundDecimals
  by_cases h : (n : ℝ) ≤ v * 10 ^ d
  · exact roundHalfEven_of_lt _ n h h2
  · have h3 := roundHalfEven_of_gt (v * 10 ^ d) (n - 1) (by push_cast; linarith)
      (by push_cast; linarith)
    rw [h3]
    ring

theorem roundDecimals_eq_of_between (d : Nat) (n : Int) (v lo hi : ℝ) (h1 : lo ≤ v)
    (h2 : v < hi) (hlo : (n : ℝ) - 1 / 2 < lo * 10 ^ d) (hhi : hi * 10 ^ d ≤ (n : ℝ) + 1 / 2) :
    roundDecimals d v = n := by
  have hp : (0 : ℝ) < 10 ^ d := by positivity
  apply roundDecimals_eq_of_bounds
  · exact hlo.trans_le (mul_le_mul_of_nonneg_right h1 hp.le)
  · exact (mul_lt_mul_of_pos_right h2 hp).trans_le hhi

theorem sqrt_bounds (y lo hi : ℝ) (hhi : 0 < hi) (h1 : lo ^ 2 ≤ y)
    (h2 : y < hi ^ 2) : lo ≤ Real.sqrt y ∧ Real.sqrt y < hi :=
  ⟨Real.le_sqrt_of_sq_le h1, (Real.sqrt_lt' hhi).mpr h2⟩

theorem scenario_report :
    calculate_uncertainty Real.sqrt (ofList scenario) 0.05 0 =
      some ⟨5, 10, Real.sqrt (1 / 4000), Real.sqrt (1 / 20000), 0.05, 0,
        Real.sqrt (1 / 1200), Real.sqrt (53 / 60000), Real.sqrt (53 / 60000) * 2⟩ := by
  have hlen : 2 ≤ (scenario : List ℝ).length := by decide
  have hmean : calculate_mean (ofList (scenario : List ℝ)) = 10 := by
    rw [calculate_mean_ofList]
    norm_num [scenario]
  have hstd : calculate_std_dev Real.sqrt (ofList (scenario : List ℝ)) 10 =
      Real.sqrt (1 / 4000) := by
    rw [calculate_std_dev_ofList Real.sqrt _ _ hlen]
    congr 1
    norm_num [scenario]
  have hua : calculate_type_a_uncertainty Real.sqrt (ofList (scenario : List ℝ))
      (Real.sqrt (1 / 4000)) = Real.sqrt (1 / 20000) := by
    rw [calculate_type_a_uncertainty_ofList Real.sqrt _ _ (ne_nil_of_two_le _ hlen),
      ← Real.sqrt_div (by norm_num)]
    congr 1
    norm_num [scenario]
  have hub : calculate_type_b_uncertainty Real.sqrt ⟨0.05, 0⟩ = Real.sqrt (1 / 1200) := by
    have h05 : (0.05 : ℝ) = Real.sqrt (1 / 400) := by
      rw [show (1 / 400 : ℝ) = 0.05 ^ 2 by norm_num, Real.sqrt_sq (by norm_num)]
    have hpos : ¬ (0.05 : ℝ) ≤ 0 := by norm_num
    simp only [calculate_type_b_uncertainty, hpos, if_false]
    rw [h05, ← Real.sqrt_div (by norm_num)]
    congr 1
    norm_num
  have huc : calculate_combined_uncertainty Real.sqrt (Real.sqrt (1 / 20000))
      (Real.sqrt (1 / 1200)) = Real.sqrt (53 / 60000) := by
    unfold calculate_combined_uncertainty
    rw [Real.mul_self_sqrt (by norm_num), Real.mul_self_sqrt (by norm_num)]
    congr 1
    norm_num
  rw [calculate_uncertainty_ofList Real.sqrt _ _ _ hlen, hmean, hstd, hua, hub, huc]
  rfl

theorem scenario_expanded_bounds :
    (0.05944184 : ℝ) ≤ Real.sqrt (53 / 60000) * 2 ∧
      Real.sqrt (53 / 60000) * 2 < (0.05944186 : ℝ) := by
  obtain ⟨h1, h2⟩ := sqrt_bounds (53 / 60000) 0.02972092 0.02972093 (by norm_num)
    (by norm_num) (by norm_num)
  constructor <;> linarith

theorem fixed6_eq (v : ℝ) (n : Nat) (hv : ¬ v < 0) (hn : roundDecimals 6 v = (n : Int)) :
    fixed6 v = toString (n / 1000000) ++ "." ++ digits6 (n % 1000000) := by
  unfold fixed6
  simp only [hn, hv, if_false, Int.natAbs_ofNat]
  rfl

end ScenarioLemmas

/-! ## Theorems -/

/-- C1: `calculate_uncertainty` produces no report exactly when `count < 2`,
and produces one exactly when `count >= 2`, whatever the limit error and the
distribution code. -/
theorem calculate_uncertainty_none_iff {α : Type} [LinearOrderedField α] (sqrt : α → α)
    (meas_data : MeasurementData α) (limit_error : α) (distribution_type : Int) :
    (calculate_uncertainty sqrt meas_data limit_error distribution_type = none ↔
      meas_data.count < 2) ∧
    ((∃ r, calculate_uncertainty sqrt meas_data limit_error distribution_type = some r) ↔
      2 ≤ meas_data.count) := by
  unfold calculate_uncertainty
  by_cases h : meas_data.count < 2
  · simp [h]
  · simp [h, not_lt.mp h]

/-- C4: `calculate_type_b_uncertainty` returns 0 for every limit error `<= 0`
whatever the distribution code; for a limit error `> 0` it returns
`limit_error / sqrt 3` for code 0, `limit_error / 2` for code 1,
`limit_error / 3` for code 2 and `limit_error / sqrt 3` for every other code. -/
theorem calculate_type_b_uncertainty_cases (limit_error : ℝ) (distribution_type : Int) :
    (limit_error ≤ 0 →
      calculate_type_b_uncertainty Real.sqrt ⟨limit_error, distribution_type⟩ = 0) ∧
    (0 < limit_error →
      calculate_type_b_uncertainty Real.sqrt ⟨limit_error, 0⟩ = limit_error / Real.sqrt 3 ∧
      calculate_type_b_uncertainty Real.sqrt ⟨limit_error, 1⟩ = limit_error / 2 ∧
      calculate_type_b_uncertainty Real.sqrt ⟨limit_error, 2⟩ = limit_error / 3 ∧
      (distribution_type ≠ 0 → distribution_type ≠ 1 → distribution_type ≠ 2 →
        calculate_type_b_uncertainty Real.sqrt ⟨limit_error, distribution_type⟩ =
          limit_error / Real.sqrt 3)) := by
  refine ⟨fun h => ?_, fun h => ⟨?_, ?_, ?_, fun h0 h1 h2 => ?_⟩⟩
  · simp [calculate_type_b_uncertainty, h]
  · simp [calculate_type_b_uncertainty, not_le.mpr h]
  · simp [calculate_type_b_uncertainty, not_le.mpr h]
  · simp [calculate_type_b_uncertainty, not_le.mpr h]
  · unfold calculate_type_b_uncertainty
    simp only [not_le.mpr h, if_false]

/-- Witness of C4 at the limit errors -1 and 6 and the codes 0, 1, 2 and 7. -/
theorem calculate_type_b_uncertainty_cases_witness :
    calculate_type_b_uncertainty Real.sqrt ⟨-1, 7⟩ = 0 ∧
    calculate_type_b_uncertainty Real.sqrt ⟨6, 0⟩ = 6 / Real.sqrt 3 ∧
    calculate_type_b_uncertainty Real.sqrt ⟨6, 1⟩ = 6 / 2 ∧
    calculate_type_b_uncertainty Real.sqrt ⟨6, 2⟩ = 6 / 3 ∧
    calculate_type_b_uncertainty Real.sqrt ⟨6, 7⟩ = 6 / Real.sqrt 3 :=
  ⟨(calculate_type_b_uncertainty_cases (-1) 7).1 (by norm_num),
    ((calculate_type_b_uncertainty_cases 6 7).2 (by norm_num)).1,
    ((calculate_type_b_uncertainty_cases 6 7).2 (by norm_num)).2.1,
    ((calculate_type_b_uncertainty_cases 6 7).2 (by norm_num)).2.2.1,
    ((calculate_type_b_uncertainty_cases 6 7).2 (by norm_num)).2.2.2
      (by decide) (by decide) (by decide)⟩

/-- C5: for `u_a >= 0` and `u_b >= 0` the combined uncertainty is at least
`max u_a u_b`, it equals `u_a` when `u_b = 0` and `u_b` when `u_a = 0`. -/
theorem calculate_combined_uncertainty_ge_max (u_a u_b : ℝ) (ha : 0 ≤ u_a) (hb : 0 ≤ u_b) :
    max u_a u_b ≤ calculate_combined_uncertainty Real.sqrt u_a u_b ∧
    calculate_combined_uncertainty Real.sqrt u_a 0 = u_a ∧
    calculate_combined_uncertainty Real.sqrt 0 u_b = u_b := by
  unfold calculate_combined_uncertainty
  refine ⟨max_le ?_ ?_, ?_, ?_⟩
  · apply Real.le_sqrt_of_sq_le
    nlinarith [mul_self_nonneg u_b]
  · apply Real.le_sqrt_of_sq_le
    nlinarith [mul_self_nonneg u_a]
  · simp [Real.sqrt_mul_self ha]
  · simp [Real.sqrt_mul_self hb]

/-- Witness of C5 at `u_a = 3`, `u_b = 4`. -/
theorem calculate_combined_uncertainty_ge_max_witness :
    (0 : ℝ) ≤ 3 ∧ (0 : ℝ) ≤ 4 ∧
    (max 3 4 ≤ calculate_combined_uncertainty Real.sqrt 3 4 ∧
      calculate_combined_uncertainty Real.sqrt 3 0 = 3 ∧
      calculate_combined_uncertainty Real.sqrt 0 4 = 4) :=
  ⟨by norm_num, by norm_num,
    calculate_combined_uncertainty_ge_max 3 4 (by norm_num) (by norm_num)⟩

/-- C7: for a limit error `> 0` the Type B uncertainty strictly decreases from
Uniform (code 0, `k = sqrt 3`) to Normal95 (code 1, `k = 2`) to Normal99
(code 2, `k = 3`), and `sqrt 3 < 2 < 3`. -/
theorem calculate_type_b_uncertainty_strict_anti (limit_error : ℝ) (h : 0 < limit_error) :
    calculate_type_b_uncertainty Real.sqrt ⟨limit_error, 0⟩ = limit_error / Real.sqrt 3 ∧
    calculate_type_b_uncertainty Real.sqrt ⟨limit_error, 1⟩ = limit_error / 2 ∧
    calculate_type_b_uncertainty Real.sqrt ⟨limit_error, 2⟩ = limit_error / 3 ∧
    Real.sqrt 3 < 2 ∧ (2 : ℝ) < 3 ∧
    calculate_type_b_uncertainty Real.sqrt ⟨limit_error, 1⟩ <
      calculate_type_b_uncertainty Real.sqrt ⟨limit_error, 0⟩ ∧
    calculate_type_b_uncertainty Real.sqrt ⟨limit_error, 2⟩ <
      calculate_type_b_uncertainty Real.sqrt ⟨limit_error, 1⟩ := by
  have hk : Real.sqrt 3 < 2 := by
    rw [Real.sqrt_lt' (by norm_num)]
    norm_num
  have hpos : 0 < Real.sqrt 3 := Real.sqrt_pos.mpr (by norm_num)
  have e0 : calculate_type_b_uncertainty Real.sqrt ⟨limit_error, 0⟩ =
      limit_error / Real.sqrt 3 := by
    simp [calculate_type_b_uncertainty, not_le.mpr h]
  have e1 : calculate_type_b_uncertainty Real.sqrt ⟨limit_error, 1⟩ = limit_error / 2 := by
    simp [calculate_type_b_uncertainty, not_le.mpr h]
  have e2 : calculate_type_b_uncertainty Real.sqrt ⟨limit_error, 2⟩ = limit_error / 3 := by
    simp [calculate_type_b_uncertainty, not_le.mpr h]
  refine ⟨e0, e1, e2, hk, by norm_num, ?_, ?_⟩
  · rw [e0, e1]
    exact div_lt_div_of_pos_left h hpos hk
  · rw [e1, e2]
    exact div_lt_div_of_pos_left h (by norm_num) (by norm_num)

/-- Witness of C7 at the limit error 6. -/
theorem calculate_type_b_uncertainty_strict_anti_witness :
    (0 : ℝ) < 6 ∧
    calculate_type_b_uncertainty Real.sqrt ⟨6, 1⟩ <
      calculate_type_b_uncertainty Real.sqrt ⟨6, 0⟩ ∧
    calculate_type_b_uncertainty Real.sqrt ⟨6, 2⟩ <
      calculate_type_b_uncertainty Real.sqrt ⟨6, 1⟩ :=
  ⟨by norm_num,
    (calculate_type_b_uncertainty_strict_anti 6 (by norm_num)).2.2.2.2.2.1,
    (calculate_type_b_uncertainty_strict_anti 6 (by norm_num)).2.2.2.2.2.2⟩

/-- C8: for a series of at least two measurements and every distribution code,
the report computed with limit error 0 has `uB = 0` and `uC = uA`, where `uA`
is the Type A uncertainty of the series. -/
theorem calculate_uncertainty_zero_limit_error (buf : List ℝ) (h : 2 ≤ buf.length)
    (distribution_type : Int) :
    ∃ r : Report ℝ,
      calculate_uncertainty Real.sqrt (ofList buf) 0 distribution_type = some r ∧
      r.u_a = calculate_type_a_uncertainty Real.sqrt (ofList buf)
        (calculate_std_dev Real.sqrt (ofList buf) (calculate_mean (ofList buf))) ∧
      r.u_b = 0 ∧ r.u_c = r.u_a := by
  have hne : buf ≠ [] := ne_nil_of_two_le buf h
  have hb : calculate_type_b_uncertainty Real.sqrt ⟨0, distribution_type⟩ = 0 := by
    simp [calculate_type_b_uncertainty]
  have ha : 0 ≤ calculate_type_a_uncertainty Real.sqrt (ofList buf)
      (calculate_std_dev Real.sqrt (ofList buf) (calculate_mean (ofList buf))) := by
    rw [calculate_type_a_uncertainty_ofList Real.sqrt buf _ hne,
      calculate_std_dev_ofList Real.sqrt buf _ h]
    exact div_nonneg (Real.sqrt_nonneg _) (Real.sqrt_nonneg _)
  refine ⟨_, calculate_uncertainty_ofList Real.sqrt buf 0 distribution_type h, rfl, hb, ?_⟩
  simp only [hb, calculate_combined_uncertainty, mul_zero, add_zero]
  exact Real.sqrt_mul_self ha

/-- Witness of C8 at the series `[1, 3]` with code 2. -/
theorem calculate_uncertainty_zero_limit_error_witness :
    2 ≤ ([1, 3] : List ℝ).length ∧
    ∃ r : Report ℝ,
      calculate_uncertainty Real.sqrt (ofList [1, 3]) 0 2 = some r ∧
      r.u_a = calculate_type_a_uncertainty Real.sqrt (ofList [1, 3])
        (calculate_std_dev Real.sqrt (ofList [1, 3]) (calculate_mean (ofList [1, 3]))) ∧
      r.u_b = 0 ∧ r.u_c = r.u_a :=
  ⟨by decide, calculate_uncertainty_zero_limit_error [1, 3] (by decide) 2⟩

/-- C6, as amended: in exact arithmetic, for a series with at least one
measurement, adding the constant `c` to every measurement shifts
`calculate_mean` by exactly `c` and leaves `calculate_std_dev` (taken at the
respective means) unchanged. -/
theorem calculate_mean_std_dev_shift (buf : List ℝ) (c : ℝ) (h : buf ≠ []) :
    calculate_mean (ofList (buf.map (fun x => x + c))) = calculate_mean (ofList buf) + c ∧
    calculate_std_dev Real.sqrt (ofList (buf.map (fun x => x + c)))
        (calculate_mean (ofList (buf.map (fun x => x + c)))) =
      calculate_std_dev Real.sqrt (ofList buf) (calculate_mean (ofList buf)) := by
  have hlen0 : (buf.length : ℝ) ≠ 0 := by
    have : buf.length ≠ 0 := fun h0 => h (List.length_eq_zero.mp h0)
    exact_mod_cast this
  have hmean : calculate_mean (ofList (buf.map (fun x => x + c))) =
      calculate_mean (ofList buf) + c := by
    rw [calculate_mean_ofList, calculate_mean_ofList, sum_map_add_const, List.length_map]
    field_simp
    ring
  refine ⟨hmean, ?_⟩
  rw [hmean]
  by_cases h2 : 2 ≤ buf.length
  · rw [calculate_std_dev_ofList Real.sqrt _ _ (by simpa using h2),
      calculate_std_dev_ofList Real.sqrt buf _ h2, List.length_map, List.map_map]
    congr 3
    apply List.map_congr_left
    intro x _
    simp only [Function.comp]
    ring
  · have h1 : buf.length ≤ 1 := by omega
    rw [calculate_std_dev_ofList_short Real.sqrt _ _ (by simpa using h1),
      calculate_std_dev_ofList_short Real.sqrt buf _ h1]

/-- Witness of C6 at the series `[1, 3]` with the offset 5. -/
theorem calculate_mean_std_dev_shift_witness :
    ([1, 3] : List ℝ) ≠ [] ∧
    (calculate_mean (ofList (([1, 3] : List ℝ).map (fun x => x + 5))) =
        calculate_mean (ofList ([1, 3] : List ℝ)) + 5 ∧
      calculate_std_dev Real.sqrt (ofList (([1, 3] : List ℝ).map (fun x => x + 5)))
          (calculate_mean (ofList (([1, 3] : List ℝ).map (fun x => x + 5)))) =
        calculate_std_dev Real.sqrt (ofList [1, 3]) (calculate_mean (ofList [1, 3]))) :=
  ⟨by simp, calculate_mean_std_dev_shift [1, 3] 5 (by simp)⟩

/-- C10, as amended: in exact arithmetic, for two series holding the same
measurements in a different order, `calculate_mean` and `calculate_std_dev`
(at that mean) agree, hence so do the Type A uncertainty and the whole report
(`uC`, expanded uncertainty included) for the same limit error and
distribution code. -/
theorem calculate_uncertainty_perm (buf₁ buf₂ : List ℝ) (hp : buf₁.Perm buf₂)
    (limit_error : ℝ) (distribution_type : Int) :
    calculate_mean (ofList buf₁) = calculate_mean (ofList buf₂) ∧
    calculate_std_dev Real.sqrt (ofList buf₁) (calculate_mean (ofList buf₁)) =
      calculate_std_dev Real.sqrt (ofList buf₂) (calculate_mean (ofList buf₂)) ∧
    calculate_type_a_uncertainty Real.sqrt (ofList buf₁)
        (calculate_std_dev Real.sqrt (ofList buf₁) (calculate_mean (ofList buf₁))) =
      calculate_type_a_uncertainty Real.sqrt (ofList buf₂)
        (calculate_std_dev Real.sqrt (ofList buf₂) (calculate_mean (ofList buf₂))) ∧
    calculate_uncertainty Real.sqrt (ofList buf₁) limit_error distribution_type =
      calculate_uncertainty Real.sqrt (ofList buf₂) limit_error distribution_type := by
  have hm := calculate_mean_perm buf₁ buf₂ hp
  have hs := calculate_std_dev_perm Real.sqrt buf₁ buf₂ hp
  have ha := calculate_type_a_uncertainty_perm Real.sqrt buf₁ buf₂ hp
  have hc : (ofList buf₁).count = (ofList buf₂).count := by
    simp only [ofList, hp.length_eq]
  refine ⟨hm, ?_, ?_, ?_⟩
  · rw [hm, hs]
  · rw [hm, hs, ha]
  · unfold calculate_uncertainty
    simp only [hm, hs, ha, hc]

/-- Witness of C10 at the series `[1, 2, 4]` and its reordering `[2, 4, 1]`. -/
theorem calculate_uncertainty_perm_witness :
    ([1, 2, 4] : List ℝ).Perm [2, 4, 1] ∧
    calculate_uncertainty Real.sqrt (ofList [1, 2, 4]) 1 0 =
      calculate_uncertainty Real.sqrt (ofList [2, 4, 1]) 1 0 :=
  ⟨@List.perm_append_comm ℝ [1] [2, 4],
    (calculate_uncertainty_perm [1, 2, 4] [2, 4, 1] (@List.perm_append_comm ℝ [1] [2, 4])
      1 0).2.2.2⟩

/-- C9: in every state reached from the initial empty series by a sequence of
`add_data_point` and `clear_data` calls, `clear_data` leaves `count = 0` (and a
null block), and a following successful `add_data_point` leaves `count = 1`
with the block holding exactly the new value, whatever the history. -/
theorem clear_then_add_count {α : Type} [Zero α] (actions : List (Action α)) (value : α) :
    (clear_data (run initial actions)).count = 0 ∧
    (clear_data (run initial actions)).data = none ∧
    (add_data_point true value true (clear_data (run initial actions))).count = 1 ∧
    (add_data_point true value true (clear_data (run initial actions))).data =
      some [value] := by
  have hinv := nullImpliesEmpty_run actions initial nullImpliesEmpty_initial
  rw [clear_data_of_nullImpliesEmpty _ hinv]
  refine ⟨rfl, rfl, ?_, ?_⟩
  · simp [add_data_point, wrapInt32]
  · simp [add_data_point, wrapInt32, realloc]

/-- C2, as amended: for the series 10.00, 10.02, 9.98, 10.01, 9.99 with limit
error 0.05 and the uniform distribution the report has mean exactly 10, and
`stdDev`, `uA`, `uB`, `uC` and the expanded uncertainty round to 0.0158,
0.00707, 0.02887, 0.02972 and 0.05944; the expanded uncertainty rounded to six
decimals is 0.059442 and the final statement is `10.000000 ± 0.059442`. -/
theorem scenario_report_values :
    ∃ r : Report ℝ,
      calculate_uncertainty Real.sqrt (ofList scenario) 0.05 0 = some r ∧
      r.mean = 10 ∧
      roundDecimals 4 r.std_dev = 158 ∧
      roundDecimals 5 r.u_a = 707 ∧
      roundDecimals 5 r.u_b = 2887 ∧
      roundDecimals 5 r.u_c = 2972 ∧
      roundDecimals 5 r.expanded_uncert = 5944 ∧
      roundDecimals 6 r.expanded_uncert = 59442 ∧
      result_statement r = "10.000000 ± 0.059442" := by
  obtain ⟨e1, e2⟩ := scenario_expanded_bounds
  obtain ⟨c1, c2⟩ := sqrt_bounds (53 / 60000) 0.02972092 0.02972093 (by norm_num)
    (by norm_num) (by norm_num)
  obtain ⟨s1, s2⟩ := sqrt_bounds (1 / 4000) 0.01581 0.01582 (by norm_num) (by norm_num)
    (by norm_num)
  obtain ⟨a1, a2⟩ := sqrt_bounds (1 / 20000) 0.00707 0.007072 (by norm_num) (by norm_num)
    (by norm_num)
  obtain ⟨b1, b2⟩ := sqrt_bounds (1 / 1200) 0.028867 0.028868 (by norm_num) (by norm_num)
    (by norm_num)
  have h6 : roundDecimals 6 (Real.sqrt (53 / 60000) * 2) = ((59442 : Nat) : Int) :=
    roundDecimals_eq_of_between 6 _ _ _ _ e1 e2 (by norm_num) (by norm_num)
  have h10 : roundDecimals 6 (10 : ℝ) = ((10000000 : Nat) : Int) := by
    apply roundDecimals_eq_of_bounds <;> norm_num
  refine ⟨_, scenario_report, rfl, ?_, ?_, ?_, ?_, ?_, ?_, ?_⟩
  · exact roundDecimals_eq_of_between 4 _ _ _ _ s1 s2 (by norm_num) (by norm_num)
  · exact roundDecimals_eq_of_between 5 _ _ _ _ a1 a2 (by norm_num) (by norm_num)
  · exact roundDecimals_eq_of_between 5 _ _ _ _ b1 b2 (by norm_num) (by norm_num)
  · exact roundDecimals_eq_of_between 5 _ _ _ _ c1 c2 (by norm_num) (by norm_num)
  · exact roundDecimals_eq_of_between 5 _ _ _ _ e1 e2 (by norm_num) (by norm_num)
  · exact_mod_cast h6
  · unfold result_statement
    rw [fixed6_eq _ 10000000 (by norm_num) h10,
      fixed6_eq _ 59442 (not_lt.mpr (by positivity)) h6]
    decide

/-- C2, as stated, fails: the report of the scenario has `uC` rounding to
0.02972 and not 0.02973, an expanded uncertainty rounding to 0.05944 and
0.059442 and not 0.05946 and 0.059458, and its final statement is not
`10.000000 ± 0.059458`. -/
theorem scenario_claimed_values_fail :
    ∃ r : Report ℝ,
      calculate_uncertainty Real.sqrt (ofList scenario) 0.05 0 = some r ∧
      roundDecimals 5 r.u_c ≠ 2973 ∧
      roundDecimals 5 r.expanded_uncert ≠ 5946 ∧
      roundDecimals 6 r.expanded_uncert ≠ 59458 ∧
      result_statement r ≠ "10.000000 ± 0.059458" := by
  obtain ⟨e1, e2⟩ := scenario_expanded_bounds
  obtain ⟨c1, c2⟩ := sqrt_bounds (53 / 60000) 0.02972092 0.02972093 (by norm_num)
    (by norm_num) (by norm_num)
  have h5c : roundDecimals 5 (Real.sqrt (53 / 60000)) = 2972 :=
    roundDecimals_eq_of_between 5 _ _ _ _ c1 c2 (by norm_num) (by norm_num)
  have h5 : roundDecimals 5 (Real.sqrt (53 / 60000) * 2) = 5944 :=
    roundDecimals_eq_of_between 5 _ _ _ _ e1 e2 (by norm_num) (by norm_num)
  have h6 : roundDecimals 6 (Real.sqrt (53 / 60000) * 2) = ((59442 : Nat) : Int) :=
    roundDecimals_eq_of_between 6 _ _ _ _ e1 e2 (by norm_num) (by norm_num)
  have h10 : roundDecimals 6 (10 : ℝ) = ((10000000 : Nat) : Int) := by
    apply roundDecimals_eq_of_bounds <;> norm_num
  refine ⟨_, scenario_report, ?_, ?_, ?_, ?_⟩
  · simp only [h5c]; decide
  · simp only [h5]; decide
  · simp only [h6]; decide
  · unfold result_statement
    rw [fixed6_eq _ 10000000 (by norm_num) h10,
      fixed6_eq _ 59442 (not_lt.mpr (by positivity)) h6]
    decide

/-- C6, as stated, fails on doubles: for the series 0, 4, 4, 4 and the offset
`2 ^ 54` (all of them, and the shifted measurements, are binary64 values) the
program's mean is 3 before and `2 ^ 54` after the shift, which is neither
`3 + 2 ^ 54` nor its rounding `2 ^ 54 + 4`, and the program's standard deviation
is 2 before and 4 after the shift.  Every difference and product of the two
evaluations is exact; the roundings are those of the three partial sums
`2 ^ 55 + 4`, `3 * 2 ^ 54 + 4` and `2 ^ 56 + 4` of the shifted series. -/
theorem calculate_mean_std_dev_shift_binary64_fails :
    (∀ x ∈ ([0, 4, 2 ^ 54, 2 ^ 54 + 4] : List ℝ), roundBinary64 x = x) ∧
    calculate_mean_rounded roundBinary64 (ofList ([0, 4, 4, 4] : List ℝ)) = 3 ∧
    calculate_mean_rounded roundBinary64
      (ofList (([0, 4, 4, 4] : List ℝ).map (fun x => x + 2 ^ 54))) = 2 ^ 54 ∧
    calculate_mean_rounded roundBinary64
        (ofList (([0, 4, 4, 4] : List ℝ).map (fun x => x + 2 ^ 54))) ≠
      calculate_mean_rounded roundBinary64 (ofList ([0, 4, 4, 4] : List ℝ)) + 2 ^ 54 ∧
    calculate_mean_rounded roundBinary64
        (ofList (([0, 4, 4, 4] : List ℝ).map (fun x => x + 2 ^ 54))) ≠
      roundBinary64
        (calculate_mean_rounded roundBinary64 (ofList ([0, 4, 4, 4] : List ℝ)) + 2 ^ 54) ∧
    calculate_std_dev_rounded roundBinary64 Real.sqrt (ofList ([0, 4, 4, 4] : List ℝ))
      (calculate_mean_rounded roundBinary64 (ofList ([0, 4, 4, 4] : List ℝ))) = 2 ∧
    calculate_std_dev_rounded roundBinary64 Real.sqrt
      (ofList (([0, 4, 4, 4] : List ℝ).map (fun x => x + 2 ^ 54)))
      (calculate_mean_rounded roundBinary64
        (ofList (([0, 4, 4, 4] : List ℝ).map (fun x => x + 2 ^ 54)))) = 4 := by
  have r0 : roundBinary64 ((-3) : ℝ) = (-3) := by simpa using roundBinary64_intCast (-3) (by norm_num)
  have r1 : roundBinary64 (0 : ℝ) = 0 := by simpa using roundBinary64_intCast 0 (by norm_num)
  have r2 : roundBinary64 (1 : ℝ) = 1 := by simpa using roundBinary64_intCast 1 (by norm_num)
  have r3 : roundBinary64 (2 : ℝ) = 2 := by simpa using roundBinary64_intCast 2 (by norm_num)
  have r4 : roundBinary64 (3 : ℝ) = 3 := by simpa using roundBinary64_intCast 3 (by norm_num)
  have r5 : roundBinary64 (4 : ℝ) = 4 := by simpa using roundBinary64_intCast 4 (by norm_num)
  have r6 : roundBinary64 (8 : ℝ) = 8 := by simpa using roundBinary64_intCast 8 (by norm_num)
  have r7 : roundBinary64 (9 : ℝ) = 9 := by simpa using roundBinary64_intCast 9 (by norm_num)
  have r8 : roundBinary64 (10 : ℝ) = 10 := by simpa using roundBinary64_intCast 10 (by norm_num)
  have r9 : roundBinary64 (11 : ℝ) = 11 := by simpa using roundBinary64_intCast 11 (by norm_num)
  have r10 : roundBinary64 (12 : ℝ) = 12 := by simpa using roundBinary64_intCast 12 (by norm_num)
  have r11 : roundBinary64 (16 : ℝ) = 16 := by simpa using roundBinary64_intCast 16 (by norm_num)
  have r12 : roundBinary64 (32 : ℝ) = 32 := by simpa using roundBinary64_intCast 32 (by norm_num)
  have r13 : roundBinary64 (48 : ℝ) = 48 := by simpa using roundBinary64_intCast 48 (by norm_num)
  have r14 : roundBinary64 (18014398509481984 : ℝ) = 18014398509481984 := by
    have h := roundBinary64_of_scaled 4503599627370496 2 (by norm_num) (by norm_num)
    norm_num at h ⊢
    exact h
  have r15 : roundBinary64 (18014398509481987 : ℝ) = 18014398509481988 := by
    rw [roundBinary64_eq _ 54 4503599627370497 (by norm_num) (by norm_num [abs_of_pos]) (by norm_num [abs_of_pos])]
    · norm_num
    · rw [roundHalfEven_of_gt _ 4503599627370496] <;> norm_num
  have r16 : roundBinary64 (18014398509481988 : ℝ) = 18014398509481988 := by
    have h := roundBinary64_of_scaled 4503599627370497 2 (by norm_num) (by norm_num)
    norm_num at h ⊢
    exact h
  have r17 : roundBinary64 (36028797018963972 : ℝ) = 36028797018963968 := by
    rw [roundBinary64_eq _ 55 4503599627370496 (by norm_num) (by norm_num [abs_of_pos]) (by norm_num [abs_of_pos])]
    · norm_num
    · rw [roundHalfEven_tie _ 4503599627370496 (by norm_num)]
      norm_num
  have r18 : roundBinary64 (54043195528445956 : ℝ) = 54043195528445952 := by
    rw [roundBinary64_eq _ 55 6755399441055744 (by norm_num) (by norm_num [abs_of_pos]) (by norm_num [abs_of_pos])]
    · norm_num
    · rw [roundHalfEven_tie _ 6755399441055744 (by norm_num)]
      norm_num
  have r19 : roundBinary64 (72057594037927940 : ℝ) = 72057594037927936 := by
    rw [roundBinary64_eq _ 56 4503599627370496 (by norm_num) (by norm_num [abs_of_pos]) (by norm_num [abs_of_pos])]
    · norm_num
    · exact roundHalfEven_of_lt _ 4503599627370496 (by norm_num) (by norm_num)
  have s4 : Real.sqrt 4 = 2 := by
    rw [show (4 : ℝ) = 2 ^ 2 by norm_num, Real.sqrt_sq (by norm_num)]
  have s16 : Real.sqrt 16 = 4 := by
    rw [show (16 : ℝ) = 4 ^ 2 by norm_num, Real.sqrt_sq (by norm_num)]
  have h4 : (4 : ℤ).toNat = 4 := rfl
  have hr : List.range 4 = [0, 1, 2, 3] := rfl
  have hmo : calculate_mean_rounded roundBinary64 (ofList ([0, 4, 4, 4] : List ℝ)) = 3 := by
    norm_num [calculate_mean_rounded, ofList, MeasurementData.elem, h4, hr,
      r0, r1, r2, r3, r4, r5, r6, r7, r8, r9, r10, r11, r12, r13, r14, r15, r16, r17, r18, r19]
  have hms : calculate_mean_rounded roundBinary64
      (ofList (([0, 4, 4, 4] : List ℝ).map (fun x => x + 2 ^ 54))) = 2 ^ 54 := by
    norm_num [calculate_mean_rounded, ofList, MeasurementData.elem, h4, hr,
      r0, r1, r2, r3, r4, r5, r6, r7, r8, r9, r10, r11, r12, r13, r14, r15, r16, r17, r18, r19]
  refine ⟨?_, hmo, hms, ?_, ?_, ?_, ?_⟩
  · intro x hx
    simp only [List.mem_cons, List.mem_singleton, List.not_mem_nil, or_false] at hx
    rcases hx with rfl | rfl | rfl | rfl <;> norm_num [
      r0, r1, r2, r3, r4, r5, r6, r7, r8, r9, r10, r11, r12, r13, r14, r15, r16, r17, r18, r19]
  · rw [hms, hmo]
    norm_num
  · rw [hms, hmo]
    norm_num [
      r0, r1, r2, r3, r4, r5, r6, r7, r8, r9, r10, r11, r12, r13, r14, r15, r16, r17, r18, r19]
  · rw [hmo]
    norm_num [calculate_std_dev_rounded, ofList, MeasurementData.elem, h4, hr, s4, s16,
      r0, r1, r2, r3, r4, r5, r6, r7, r8, r9, r10, r11, r12, r13, r14, r15, r16, r17, r18, r19]
  · rw [hms]
    norm_num [calculate_std_dev_rounded, ofList, MeasurementData.elem, h4, hr, s4, s16,
      r0, r1, r2, r3, r4, r5, r6, r7, r8, r9, r10, r11, r12, r13, r14, r15, r16, r17, r18, r19]

/-- C10, as stated, fails on doubles: with `b = 2 ^ 53` the series
`b, b+2, b+2, b+2, b+2` and its reordering `b+2, b+2, b+2, b+2, b` (binary64
values all) get the means `b` and `b + 2` and the standard deviations 2 and 1
from the program. -/
theorem calculate_uncertainty_perm_binary64_fails :
    ([2 ^ 53, 2 ^ 53 + 2, 2 ^ 53 + 2, 2 ^ 53 + 2, 2 ^ 53 + 2] : List ℝ).Perm
      [2 ^ 53 + 2, 2 ^ 53 + 2, 2 ^ 53 + 2, 2 ^ 53 + 2, 2 ^ 53] ∧
    (∀ x ∈ ([2 ^ 53, 2 ^ 53 + 2] : List ℝ), roundBinary64 x = x) ∧
    calculate_mean_rounded roundBinary64
      (ofList ([2 ^ 53, 2 ^ 53 + 2, 2 ^ 53 + 2, 2 ^ 53 + 2, 2 ^ 53 + 2] : List ℝ)) = 2 ^ 53 ∧
    calculate_mean_rounded roundBinary64
      (ofList ([2 ^ 53 + 2, 2 ^ 53 + 2, 2 ^ 53 + 2, 2 ^ 53 + 2, 2 ^ 53] : List ℝ)) =
        2 ^ 53 + 2 ∧
    calculate_std_dev_rounded roundBinary64 Real.sqrt
      (ofList ([2 ^ 53, 2 ^ 53 + 2, 2 ^ 53 + 2, 2 ^ 53 + 2, 2 ^ 53 + 2] : List ℝ))
      (calculate_mean_rounded roundBinary64
        (ofList ([2 ^ 53, 2 ^ 53 + 2, 2 ^ 53 + 2, 2 ^ 53 + 2, 2 ^ 53 + 2] : List ℝ))) = 2 ∧
    calculate_std_dev_rounded roundBinary64 Real.sqrt
      (ofList ([2 ^ 53 + 2, 2 ^ 53 + 2, 2 ^ 53 + 2, 2 ^ 53 + 2, 2 ^ 53] : List ℝ))
      (calculate_mean_rounded roundBinary64
        (ofList ([2 ^ 53 + 2, 2 ^ 53 + 2, 2 ^ 53 + 2, 2 ^ 53 + 2, 2 ^ 53] : List ℝ))) = 1 := by
  have r0 : roundBinary64 ((-2) : ℝ) = (-2) := by simpa using roundBinary64_intCast (-2) (by norm_num)
  have r1 : roundBinary64 (0 : ℝ) = 0 := by simpa using roundBinary64_intCast 0 (by norm_num)
  have r2 : roundBinary64 (1 : ℝ) = 1 := by simpa using roundBinary64_intCast 1 (by norm_num)
  have r3 : roundBinary64 (2 : ℝ) = 2 := by simpa using roundBinary64_intCast 2 (by norm_num)
  have r4 : roundBinary64 (4 : ℝ) = 4 := by simpa using roundBinary64_intCast 4 (by norm_num)
  have r5 : roundBinary64 (8 : ℝ) = 8 := by simpa using roundBinary64_intCast 8 (by norm_num)
  have r6 : roundBinary64 (12 : ℝ) = 12 := by simpa using roundBinary64_intCast 12 (by norm_num)
  have r7 : roundBinary64 (16 : ℝ) = 16 := by simpa using roundBinary64_intCast 16 (by norm_num)
  have r8 : roundBinary64 (9007199254740992 : ℝ) = 9007199254740992 := by
    have h := roundBinary64_of_scaled 4503599627370496 1 (by norm_num) (by norm_num)
    norm_num at h ⊢
    exact h
  have r9 : roundBinary64 ((45035996273704968 / 5) : ℝ) = 9007199254740994 := by
    rw [roundBinary64_eq _ 53 4503599627370497 (by norm_num) (by norm_num [abs_of_pos]) (by norm_num [abs_of_pos])]
    · norm_num
    · rw [roundHalfEven_of_gt _ 4503599627370496] <;> norm_num
  have r10 : roundBinary64 (9007199254740994 : ℝ) = 9007199254740994 := by
    have h := roundBinary64_of_scaled 4503599627370497 1 (by norm_num) (by norm_num)
    norm_num at h ⊢
    exact h
  have r11 : roundBinary64 (18014398509481986 : ℝ) = 18014398509481984 := by
    rw [roundBinary64_eq _ 54 4503599627370496 (by norm_num) (by norm_num [abs_of_pos]) (by norm_num [abs_of_pos])]
    · norm_num
    · rw [roundHalfEven_tie _ 4503599627370496 (by norm_num)]
      norm_num
  have r12 : roundBinary64 (18014398509481988 : ℝ) = 18014398509481988 := by
    have h := roundBinary64_of_scaled 4503599627370497 2 (by norm_num) (by norm_num)
    norm_num at h ⊢
    exact h
  have r13 : roundBinary64 (27021597764222978 : ℝ) = 27021597764222976 := by
    rw [roundBinary64_eq _ 54 6755399441055744 (by norm_num) (by norm_num [abs_of_pos]) (by norm_num [abs_of_pos])]
    · norm_num
    · rw [roundHalfEven_tie _ 6755399441055744 (by norm_num)]
      norm_num
  have r14 : roundBinary64 (27021597764222982 : ℝ) = 27021597764222984 := by
    rw [roundBinary64_eq _ 54 6755399441055746 (by norm_num) (by norm_num [abs_of_pos]) (by norm_num [abs_of_pos])]
    · norm_num
    · rw [roundHalfEven_tie _ 6755399441055745 (by norm_num)]
      norm_num
  have r15 : roundBinary64 (36028797018963970 : ℝ) = 36028797018963968 := by
    rw [roundBinary64_eq _ 55 4503599627370496 (by norm_num) (by norm_num [abs_of_pos]) (by norm_num [abs_of_pos])]
    · norm_num
    · exact roundHalfEven_of_lt _ 4503599627370496 (by norm_num) (by norm_num)
  have r16 : roundBinary64 (36028797018963978 : ℝ) = 36028797018963976 := by
    rw [roundBinary64_eq _ 55 4503599627370497 (by norm_num) (by norm_num [abs_of_pos]) (by norm_num [abs_of_pos])]
    · norm_num
    · exact roundHalfEven_of_lt _ 4503599627370497 (by norm_num) (by norm_num)
  have r17 : roundBinary64 (45035996273704962 : ℝ) = 45035996273704960 := by
    rw [roundBinary64_eq _ 55 5629499534213120 (by norm_num) (by norm_num [abs_of_pos]) (by norm_num [abs_of_pos])]
    · norm_num
    · exact roundHalfEven_of_lt _ 5629499534213120 (by norm_num) (by norm_num)
  have r18 : roundBinary64 (45035996273704968 : ℝ) = 45035996273704968 := by
    have h := roundBinary64_of_scaled 5629499534213121 3 (by norm_num) (by norm_num)
    norm_num at h ⊢
    exact h
  have s1 : Real.sqrt 1 = 1 := Real.sqrt_one
  have s4 : Real.sqrt 4 = 2 := by
    rw [show (4 : ℝ) = 2 ^ 2 by norm_num, Real.sqrt_sq (by norm_num)]
  have h5 : (5 : ℤ).toNat = 5 := rfl
  have hr : List.range 5 = [0, 1, 2, 3, 4] := rfl
  have hm1 : calculate_mean_rounded roundBinary64
      (ofList ([2 ^ 53, 2 ^ 53 + 2, 2 ^ 53 + 2, 2 ^ 53 + 2, 2 ^ 53 + 2] : List ℝ)) = 2 ^ 53 := by
    norm_num [calculate_mean_rounded, ofList, MeasurementData.elem, h5, hr,
      r0, r1, r2, r3, r4, r5, r6, r7, r8, r9, r10, r11, r12, r13, r14, r15, r16, r17, r18]
  have hm2 : calculate_mean_rounded roundBinary64
      (ofList ([2 ^ 53 + 2, 2 ^ 53 + 2, 2 ^ 53 + 2, 2 ^ 53 + 2, 2 ^ 53] : List ℝ)) =
        2 ^ 53 + 2 := by
    norm_num [calculate_mean_rounded, ofList, MeasurementData.elem, h5, hr,
      r0, r1, r2, r3, r4, r5, r6, r7, r8, r9, r10, r11, r12, r13, r14, r15, r16, r17, r18]
  refine ⟨@List.perm_append_comm ℝ [2 ^ 53] [2 ^ 53 + 2, 2 ^ 53 + 2, 2 ^ 53 + 2, 2 ^ 53 + 2],
    ?_, hm1, hm2, ?_, ?_⟩
  · intro x hx
    simp only [List.mem_cons, List.mem_singleton, List.not_mem_nil, or_false] at hx
    rcases hx with rfl | rfl <;> norm_num [
      r0, r1, r2, r3, r4, r5, r6, r7, r8, r9, r10, r11, r12, r13, r14, r15, r16, r17, r18]
  · rw [hm1]
    norm_num [calculate_std_dev_rounded, ofList, MeasurementData.elem, h5, hr, s1, s4,
      r0, r1, r2, r3, r4, r5, r6, r7, r8, r9, r10, r11, r12, r13, r14, r15, r16, r17, r18]
  · rw [hm2]
    norm_num [calculate_std_dev_rounded, ofList, MeasurementData.elem, h5, hr, s1, s4,
      r0, r1, r2, r3, r4, r5, r6, r7, r8, r9, r10, r11, r12, r13, r14, r15, r16, r17, r18]

end UncertaintyCalculator
